import Mathlib

/-!
Verification of the deepfake-recognition scoring core.

Shallow embedding of `backend/app/ppg.py` (rPPG CHROM pipeline with
per-session colour buffers) and `backend/app/main.py` (fusion,
classification, single-frame and batch analysis endpoints), together with
theorems settling the specification claims about them.

Numeric idealisation: Python floats are modelled as exact numbers —
pixel values, buffer contents and ROI means as rationals (all these
operations are exact field arithmetic), and the signal-processing /
fusion layer as real numbers (it uses square roots and a DFT).
-/

namespace Deepfake

/-- Python `int(v · (p/100))` for an integer `v` and a percentage `p`
(the ROI fractions 0.15, 0.25, 0.75 are all percentages): the exact
product truncated toward zero — Python `int()` truncates toward zero,
as does `Int.tdiv`. -/
def pyIntFrac (p v : ℤ) : ℤ := Int.tdiv (v * p) 100

/-- One pixel of a BGR frame (OpenCV channel order: index 0 = blue,
1 = green, 2 = red), channel values idealised as rationals. -/
structure Pixel where
  b : ℚ
  g : ℚ
  r : ℚ
deriving DecidableEq

/-- A full frame: `h × w` grid of pixels, `pix row col`. -/
structure Frame where
  h : ℕ
  w : ℕ
  pix : ℕ → ℕ → Pixel

/-- A face bounding box `{"x", "y", "w", "h"}` in pixel coordinates, the
fields already passed through Python `int(...)`. -/
structure BBox where
  x : ℤ
  y : ℤ
  w : ℤ
  h : ℤ
deriving DecidableEq

/-- `np.clip(x, 0.0, 1.0)`. -/
def clip01 (x : ℝ) : ℝ := min 1 (max 0 x)

/-- Append to a `collections.deque(maxlen := cap)`: push right, evicting
from the left whenever the length would exceed `cap`. -/
def pushCap (cap : ℕ) (xs : List α) (x : α) : List α :=
  let ys := xs ++ [x]
  if cap < ys.length then ys.drop (ys.length - cap) else ys

/-- The last `n` elements of a list (all of it when it is shorter). -/
def lastN (n : ℕ) (xs : List α) : List α := xs.drop (xs.length - n)

/-- Pointwise combination of three lists, truncating to the shortest. -/
def zipWith3 (f : α → β → γ → δ) : List α → List β → List γ → List δ
  | a :: as, b :: bs, c :: cs => f a b c :: zipWith3 f as bs cs
  | _, _, _ => []

/-- `np.mean` of a list of reals (sum divided by length). -/
noncomputable def listMean (l : List ℝ) : ℝ := l.sum / l.length

/-- `np.std` (population standard deviation, `ddof = 0`). -/
noncomputable def listStd (l : List ℝ) : ℝ :=
  Real.sqrt ((l.map (fun v => (v - listMean l) ^ 2)).sum / l.length)

/-- Bin `k` of the discrete Fourier transform of a real signal `p`
(`np.fft.rfft` computes exactly these bins for `k = 0 … n/2`). -/
noncomputable def dftBin (p : List ℝ) (k : ℕ) : ℂ :=
  ∑ t ∈ Finset.range p.length,
    (p.getD t 0 : ℂ) *
      Complex.exp (-(2 * (Real.pi : ℂ) * Complex.I * k * t) / p.length)

/-- `PPGSession`: per-session deques of colour samples
(`deque(maxlen = 300)` for each of R, G, B). -/
structure PPGSession where
  r : List ℚ
  g : List ℚ
  b : List ℚ
deriving DecidableEq

/-- `PPGSession.MAX_LEN = 300` (~10 seconds at 30 fps). -/
def PPGSession.MAX_LEN : ℕ := 300

/-- A freshly constructed `PPGSession` (three empty deques). -/
def PPGSession.init : PPGSession := ⟨[], [], []⟩

/-- `PPGSession.append`: push one colour sample onto all three deques. -/
def PPGSession.append (s : PPGSession) (r g b : ℚ) : PPGSession :=
  ⟨pushCap PPGSession.MAX_LEN s.r r,
   pushCap PPGSession.MAX_LEN s.g g,
   pushCap PPGSession.MAX_LEN s.b b⟩

/-- `len(session)` — the length of the red deque. -/
def PPGSession.len (s : PPGSession) : ℕ := s.r.length

/-- The pixel values of one channel over the ROI rows `[y1, y2)` and
columns `[x1, x2)`, row by row (the flattened numpy slice). -/
def roiVals (img : Frame) (y1 y2 x1 x2 : ℕ) (ch : Pixel → ℚ) : List ℚ :=
  ((List.range (y2 - y1)).map (fun i =>
      (List.range (x2 - x1)).map (fun j => ch (img.pix (y1 + i) (x1 + j))))).flatten

/-- Mean of a list of rationals (exact; the ROI is guarded nonempty). -/
def ratMean (l : List ℚ) : ℚ := l.sum / l.length

/-- The bounding-box fields `(fx, fy, fw, fh)`; an absent (falsy) bbox
defaults to the full frame: `0, 0, w_img, h_img`. -/
def bboxVals (img : Frame) (face_bbox : Option BBox) : ℤ × ℤ × ℤ × ℤ :=
  match face_bbox with
  | some bb => (bb.x, bb.y, bb.w, bb.h)
  | none => (0, 0, (img.w : ℤ), (img.h : ℤ))

/-- `roi_y1 = fy`. -/
def roiY1 (img : Frame) (bb : Option BBox) : ℤ := (bboxVals img bb).2.1

/-- `roi_y2 = fy + max(1, int(fh * 0.15))`. -/
def roiY2 (img : Frame) (bb : Option BBox) : ℤ :=
  (bboxVals img bb).2.1 + max 1 (pyIntFrac 15 (bboxVals img bb).2.2.2)

/-- `roi_x1 = fx + int(fw * 0.25)`. -/
def roiX1 (img : Frame) (bb : Option BBox) : ℤ :=
  (bboxVals img bb).1 + pyIntFrac 25 (bboxVals img bb).2.2.1

/-- `roi_x2 = fx + int(fw * 0.75)`. -/
def roiX2 (img : Frame) (bb : Option BBox) : ℤ :=
  (bboxVals img bb).1 + pyIntFrac 75 (bboxVals img bb).2.2.1

/-- `roi_y1` clamped from below to the frame: `max(0, roi_y1)`. -/
def cY1 (img : Frame) (bb : Option BBox) : ℤ := max 0 (roiY1 img bb)

/-- `roi_y2` clamped from above to the frame: `min(h_img, roi_y2)`. -/
def cY2 (img : Frame) (bb : Option BBox) : ℤ := min (img.h : ℤ) (roiY2 img bb)

/-- `roi_x1` clamped from below to the frame: `max(0, roi_x1)`. -/
def cX1 (img : Frame) (bb : Option BBox) : ℤ := max 0 (roiX1 img bb)

/-- `roi_x2` clamped from above to the frame: `min(w_img, roi_x2)`. -/
def cX2 (img : Frame) (bb : Option BBox) : ℤ := min (img.w : ℤ) (roiX2 img bb)

/-- The mean of one colour channel over the clamped ROI. -/
def roiChannelMean (img : Frame) (bb : Option BBox) (ch : Pixel → ℚ) : ℚ :=
  ratMean (roiVals img (cY1 img bb).toNat (cY2 img bb).toNat
    (cX1 img bb).toNat (cX2 img bb).toNat ch)

/-- `PPGAnalyzer._extract_forehead_rgb`: mean (R, G, B) of the forehead
ROI — top `max(1, int(0.15·h))` rows of the bounding box, horizontal band
from `int(0.25·w)` to `int(0.75·w)`, both clamped to the frame — or
`none` when the clamped ROI is empty (`roi_y2 <= roi_y1 or roi_x2 <= roi_x1`
after clamping). -/
def extract_forehead_rgb (img : Frame) (face_bbox : Option BBox) :
    Option (ℚ × ℚ × ℚ) :=
  if cY2 img face_bbox ≤ cY1 img face_bbox ∨ cX2 img face_bbox ≤ cX1 img face_bbox
  then none
  else
    some (roiChannelMean img face_bbox (·.r),
          roiChannelMean img face_bbox (·.g),
          roiChannelMean img face_bbox (·.b))

/-- Per-channel normalisation (`r_n = r / (r.mean() + 1e-6)` etc.). -/
noncomputable def normChannel (l : List ℝ) : List ℝ :=
  l.map (fun v => v / (listMean l + 1e-6))

/-- `session.as_array()`, red channel (rationals viewed as reals). -/
def sessR (s : PPGSession) : List ℝ := s.r.map (fun q => (q : ℝ))

/-- `session.as_array()`, green channel. -/
def sessG (s : PPGSession) : List ℝ := s.g.map (fun q => (q : ℝ))

/-- `session.as_array()`, blue channel. -/
def sessB (s : PPGSession) : List ℝ := s.b.map (fun q => (q : ℝ))

/-- CHROM projection `X = 3·r_n − 2·g_n`. -/
noncomputable def chromX (s : PPGSession) : List ℝ :=
  List.zipWith (fun a c => 3 * a - 2 * c) (normChannel (sessR s)) (normChannel (sessG s))

/-- CHROM projection `Y = 1.5·r_n + g_n − 1.5·b_n`. -/
noncomputable def chromY (s : PPGSession) : List ℝ :=
  zipWith3 (fun a c d => 1.5 * a + c - 1.5 * d)
    (normChannel (sessR s)) (normChannel (sessG s)) (normChannel (sessB s))

/-- `alpha = X.std() / (Y.std() + 1e-9)`. -/
noncomputable def chromAlpha (s : PPGSession) : ℝ :=
  listStd (chromX s) / (listStd (chromY s) + 1e-9)

/-- The pulse signal `ppg = X - alpha * Y`. -/
noncomputable def pulseSignal (s : PPGSession) : List ℝ :=
  List.zipWith (fun x y => x - chromAlpha s * y) (chromX s) (chromY s)

/-- `power_in`: sum of DFT bin magnitudes over the cardiac band — bins
`k = 0 … n/2` whose frequency `k·30/n` Hz lies in `[0.67, 3.33]`
(`np.fft.rfftfreq(n, d=1/30)` maps bin `k` to `k·30/n` Hz). -/
noncomputable def bandMagSum (p : List ℝ) : ℝ :=
  ∑ k ∈ Finset.range (p.length / 2 + 1),
    if (0.67 : ℝ) ≤ (k : ℝ) * 30 / p.length ∧ (k : ℝ) * 30 / p.length ≤ (3.33 : ℝ)
    then Complex.abs (dftBin p k) else 0

/-- Sum of all DFT bin magnitudes (`np.abs(fft).sum()`). -/
noncomputable def totalMagSum (p : List ℝ) : ℝ :=
  ∑ k ∈ Finset.range (p.length / 2 + 1), Complex.abs (dftBin p k)

/-- `snr = power_in / power_all` with `power_all = np.abs(fft).sum() + 1e-9`. -/
noncomputable def snrOf (p : List ℝ) : ℝ := bandMagSum p / (totalMagSum p + 1e-9)

/-- `PPGAnalyzer._compute_score`: CHROM rPPG on the buffered series, SNR
of the cardiac band of its spectrum, inverted and clipped —
`anomaly = np.clip(1.0 - snr * 3, 0.0, 1.0)`. -/
noncomputable def _compute_score (s : PPGSession) : ℝ :=
  clip01 (1.0 - snrOf (pulseSignal s) * 3)

/-- `PPGAnalyzer`: the per-session store (`self._sessions` dictionary). -/
structure PPGAnalyzer where
  sessions : String → Option PPGSession

/-- A freshly constructed `PPGAnalyzer` (empty session dictionary). -/
def PPGAnalyzer.init : PPGAnalyzer := ⟨fun _ => none⟩

/-- Store a session under a key in the dictionary. -/
def setSession (a : PPGAnalyzer) (sid : String) (s : PPGSession) : PPGAnalyzer :=
  ⟨fun k => if k = sid then some s else a.sessions k⟩

/-- `PPGAnalyzer._get_session`: look up `sid`, creating and inserting a
fresh empty session on first reference; returns the session together with
the (possibly updated) store. -/
def _get_session (a : PPGAnalyzer) (sid : String) : PPGSession × PPGAnalyzer :=
  match a.sessions sid with
  | some s => (s, a)
  | none => (PPGSession.init, setSession a sid PPGSession.init)

/-- The observable buffer state of a session id (an absent id reads as
the empty session it would be lazily created as). -/
def sessionOf (a : PPGAnalyzer) (sid : String) : PPGSession :=
  (a.sessions sid).getD PPGSession.init

/-- `PPGAnalyzer.analyze`: update the session buffer with this frame and
return the current PPG score together with the updated store. -/
noncomputable def PPGAnalyzer.analyze (a : PPGAnalyzer) (img : Frame)
    (face_bbox : Option BBox) (session_id : String) : ℝ × PPGAnalyzer :=
  let p := _get_session a session_id
  match extract_forehead_rgb img face_bbox with
  | none => (0.5, p.2)
  | some (r, g, b) =>
    let sess := p.1.append r g b
    let a2 := setSession p.2 session_id sess
    if sess.len < 60 then (0.0, a2) else (_compute_score sess, a2)

/-- The weighted fusion of `analyze_frame` (main.py line 145):
`combined = 0.60·deep_conf + 0.20·ppg_score + 0.20·temp_score`. -/
def combine (deep_conf ppg_score temporal_score : ℝ) : ℝ :=
  0.60 * deep_conf + 0.20 * ppg_score + 0.20 * temporal_score

/-- `_classify` (main.py): threshold the combined score into a
(classification, threat_level) pair. -/
noncomputable def _classify (score : ℝ) : String × String :=
  if score < 0.30 then ("real", "safe")
  else if score < 0.70 then ("suspicious", "warning")
  else ("fake", "danger")

/-- Python `round(x, d)` idealised over the reals: round to `d` decimal
places (Python breaks exact ties to even, `round` here to the nearest
integer above; the two differ only on exact ties, a float-level
distinction outside this real-valued model). -/
noncomputable def roundTo (d : ℕ) (x : ℝ) : ℝ := (round (x * 10 ^ d) : ℤ) / 10 ^ d

/-- Modelled from the spec: `backend/app/temporal.py`
(`TemporalConsistencyChecker`) is not among the analysed sources; per
spec §4.3 it keeps, per session, a FIFO window of the last `window`
(frame_number, confidence) pairs, returns 0 with fewer than 2 samples
and otherwise a deterministic function of the window clamped to [0, 1].
The undisclosed score formula is taken as the parameter `tf`. -/
structure TemporalConsistencyChecker where
  window : ℕ
  sessions : String → Option (List (ℤ × ℝ))

/-- Modelled from the spec: `TemporalConsistencyChecker.update` — append
the (frame_number, confidence) pair to the session's FIFO window
(capacity `window`) and score the window with the opaque formula `tf`,
clamped to [0, 1]; fewer than 2 samples score 0. -/
noncomputable def TemporalConsistencyChecker.update
    (tf : List (ℤ × ℝ) → ℝ) (tc : TemporalConsistencyChecker)
    (session_id : String) (confidence : ℝ) (frame_number : ℤ) :
    ℝ × TemporalConsistencyChecker :=
  let win := (tc.sessions session_id).getD []
  let win2 := pushCap tc.window win (frame_number, confidence)
  let score := if win2.length < 2 then 0 else clip01 (tf win2)
  (score,
   { tc with sessions := fun k => if k = session_id then some win2 else tc.sessions k })

/-- `FrameRequest` (main.py): one frame submitted for analysis. -/
structure FrameRequest where
  frame_b64 : String
  frame_number : ℤ
  timestamp_ms : ℤ
  session_id : String
deriving DecidableEq

/-- `BatchFrameRequest` (main.py): a batch of frames with a
batch-level session id. -/
structure BatchFrameRequest where
  frames : List FrameRequest
  session_id : String

/-- `AnalysisResult` (main.py): the per-frame response record. -/
structure AnalysisResult where
  frame_number : ℤ
  deepfake_confidence : ℝ
  ppg_score : ℝ
  temporal_score : ℝ
  combined_score : ℝ
  classification : String
  threat_level : String

/-- `BatchAnalysisResult` (main.py): the batch response record. -/
structure BatchAnalysisResult where
  results : List AnalysisResult
  session_id : String
  avg_combined_score : ℝ
  overall_verdict : String

/-- The external collaborators of the scoring core, opaque to it:
`cv2` base64/JPEG decoding, `preprocess_frame` (face detection and
cropping, from the absent `backend/app/preprocessing.py`), the visual
model's `predict`, and the undisclosed temporal score formula. -/
structure Externals where
  decode : String → Option Frame
  preprocess : Frame → Option Frame × Option BBox
  predict : Frame → ℝ
  tscore : List (ℤ × ℝ) → ℝ

/-- The server's singleton state: the PPG analyzer and the temporal
checker (constructed with window 30 at startup). -/
structure ServerState where
  ppg : PPGAnalyzer
  temporal : TemporalConsistencyChecker

/-- The server state right after startup. -/
def ServerState.init : ServerState := ⟨PPGAnalyzer.init, ⟨30, fun _ => none⟩⟩

/-- `analyze_frame` (main.py): decode, detect the face, run the visual
model, the PPG update and the temporal update, fuse and classify.
`none` models the raised `HTTPException` (bad image or no face), in
which case the state is untouched. -/
noncomputable def analyze_frame (E : Externals) (st : ServerState)
    (req : FrameRequest) : Option AnalysisResult × ServerState :=
  match E.decode req.frame_b64 with
  | none => (none, st)
  | some img =>
    match (E.preprocess img).1 with
    | none => (none, st)
    | some face =>
      let deep_conf := E.predict face
      let pr := st.ppg.analyze img (E.preprocess img).2 req.session_id
      let tr := st.temporal.update E.tscore req.session_id deep_conf req.frame_number
      let combined := combine deep_conf pr.1 tr.1
      let ct := _classify combined
      (some { frame_number := req.frame_number
              deepfake_confidence := roundTo 4 deep_conf
              ppg_score := roundTo 4 pr.1
              temporal_score := roundTo 4 tr.1
              combined_score := roundTo 4 combined
              classification := ct.1
              threat_level := ct.2 },
       ⟨pr.2, tr.2⟩)

/-- The loop body of `analyze_batch`: each frame's `session_id` is
overwritten with the batch-level id, the frame is analysed, and frames
that raise (no face / bad image) are skipped. -/
noncomputable def analyze_batch_go (E : Externals) (sid : String) :
    ServerState → List FrameRequest → List AnalysisResult × ServerState
  | st, [] => ([], st)
  | st, f :: fs =>
    let pr := analyze_frame E st { f with session_id := sid }
    let rest := analyze_batch_go E sid pr.2 fs
    match pr.1 with
    | none => rest
    | some r => (r :: rest.1, rest.2)

/-- `analyze_batch` (main.py): run every frame through `analyze_frame`
under the batch session id, fail with 422 when no frame produced a
result, otherwise average the per-frame combined scores. -/
noncomputable def analyze_batch (E : Externals) (st : ServerState)
    (req : BatchFrameRequest) : Except String BatchAnalysisResult × ServerState :=
  let run := analyze_batch_go E req.session_id st req.frames
  if run.1.isEmpty then (.error "No faces detected in any frame", run.2)
  else
    let avg := (run.1.map (·.combined_score)).sum / run.1.length
    (.ok { results := run.1
           session_id := req.session_id
           avg_combined_score := roundTo 4 avg
           overall_verdict := (_classify avg).2 },
     run.2)

/-- Whether a submitted frame yields a per-frame result (its image
decodes and a face is found) — this depends only on the frame data and
the external collaborators, never on session state. -/
def frameOk (E : Externals) (f : FrameRequest) : Bool :=
  ((E.decode f.frame_b64).bind fun img => (E.preprocess img).1).isSome

/-- The PPG scoring pipeline as the spec words it (§4.2 step 4): per-channel
normalisation by the channel mean plus an epsilon, chrominance projection
`X = 3·R_n − 2·G_n`, `Y = 1.5·R_n + G_n − 1.5·B_n`, `alpha = std X / (std Y + ε)`,
pulse `P = X − alpha·Y`, real DFT with bin `i` at frequency `i·30/n` Hz,
`SNR` = band-magnitude sum over total-magnitude sum (ε-guarded) for the
cardiac band [0.67, 3.33] Hz, and `clamp(1 − 3·SNR, 0, 1)`. -/
noncomputable def specPPGPipeline (r g b : List ℝ) : ℝ :=
  clip01 (1 - 3 * snrOf (List.zipWith
    (fun x y => x -
      (listStd (List.zipWith (fun a c => 3 * a - 2 * c) (normChannel r) (normChannel g)) /
        (listStd (zipWith3 (fun a c d => 1.5 * a + c - 1.5 * d)
          (normChannel r) (normChannel g) (normChannel b)) + 1e-9)) * y)
    (List.zipWith (fun a c => 3 * a - 2 * c) (normChannel r) (normChannel g))
    (zipWith3 (fun a c d => 1.5 * a + c - 1.5 * d)
      (normChannel r) (normChannel g) (normChannel b))))

/-- The bottom row bound of the ROI as claim C5 words it, read
literally: the top 15% of the bounding-box height, truncated to whole
pixels, with no minimum — `fy + int(fh · 0.15)`. -/
def specRoiY2 (img : Frame) (bb : Option BBox) : ℤ :=
  (bboxVals img bb).2.1 + pyIntFrac 15 (bboxVals img bb).2.2.2

/-- `specRoiY2` clamped from above to the frame. -/
def specCY2 (img : Frame) (bb : Option BBox) : ℤ := min (img.h : ℤ) (specRoiY2 img bb)

/-- The mean of one colour channel over the clamped literal-claim ROI. -/
def specRoiChannelMean (img : Frame) (bb : Option BBox) (ch : Pixel → ℚ) : ℚ :=
  ratMean (roiVals img (cY1 img bb).toNat (specCY2 img bb).toNat
    (cX1 img bb).toNat (cX2 img bb).toNat ch)

/-- Forehead extraction as claim C5 words it, read literally: the ROI is
the top 15% of the bounding-box height (no one-pixel minimum) and the
25%–75% horizontal band, clamped to the frame; fails exactly when the
clamped ROI has zero width or zero height; on success the arithmetic
mean of each channel over the ROI pixels as an (R, G, B) triple. -/
def specExtractLiteral (img : Frame) (face_bbox : Option BBox) :
    Option (ℚ × ℚ × ℚ) :=
  if specCY2 img face_bbox ≤ cY1 img face_bbox ∨
      cX2 img face_bbox ≤ cX1 img face_bbox
  then none
  else
    some (specRoiChannelMean img face_bbox (·.r),
          specRoiChannelMean img face_bbox (·.g),
          specRoiChannelMean img face_bbox (·.b))

/-- Forehead extraction as claim C5 holds after amendment: the ROI is
the top 15% of the bounding-box height but at least one pixel row
(`max(1, int(0.15·fh))` rows) and the 25%–75% horizontal band, clamped
to the frame; fails exactly when the clamped ROI has zero width or zero
height; on success the per-channel means as an (R, G, B) triple. -/
def specExtractAmended (img : Frame) (face_bbox : Option BBox) :
    Option (ℚ × ℚ × ℚ) :=
  if cY2 img face_bbox ≤ cY1 img face_bbox ∨ cX2 img face_bbox ≤ cX1 img face_bbox
  then none
  else
    some (roiChannelMean img face_bbox (·.r),
          roiChannelMean img face_bbox (·.g),
          roiChannelMean img face_bbox (·.b))

/-- One PPG update request: a frame, its bounding box, and a session id. -/
abbrev PPGUpdate := Frame × Option BBox × String

/-- Run a sequence of PPG updates through the analyzer, keeping only the
final store (the interleaving semantics of C8/C9). -/
noncomputable def runAll (a : PPGAnalyzer) : List PPGUpdate → PPGAnalyzer
  | [] => a
  | u :: us => runAll (a.analyze u.1 u.2.1 u.2.2).2 us

/-- The three channel deques of a session agree in length. -/
def balanced (s : PPGSession) : Prop :=
  s.r.length = s.g.length ∧ s.g.length = s.b.length

/-- A frame request with its `session_id` field forgotten. -/
def stripSid (f : FrameRequest) : String × ℤ × ℤ :=
  (f.frame_b64, f.frame_number, f.timestamp_ms)

/-! ### Test fixtures -/

/-- A 1×1 grey frame: its forehead ROI clamps to zero width, so
extraction fails on it. -/
def frame11 : Frame := ⟨1, 1, fun _ _ => ⟨3, 2, 1⟩⟩

/-- A 1×2 frame, every pixel (B, G, R) = (3, 2, 1): its forehead ROI is
the single pixel at (0, 0), so extraction returns (1, 2, 3). -/
def frame12 : Frame := ⟨1, 2, fun _ _ => ⟨3, 2, 1⟩⟩

/-- A 10×10 frame with every channel of every pixel equal to 5. -/
def frameC5 : Frame := ⟨10, 10, fun _ _ => ⟨5, 5, 5⟩⟩

/-- A bounding box 3 pixels tall: 15% of its height truncates to zero
rows, but the extractor's `max(1, ·)` keeps one row. -/
def bbC5 : BBox := ⟨0, 0, 10, 3⟩

/-- Feed a whole sequence of colour samples into a session, one
`append` per sample. -/
def appendAll (s : PPGSession) (samples : List (ℚ × ℚ × ℚ)) : PPGSession :=
  samples.foldl (fun acc v => acc.append v.1 v.2.1 v.2.2) s

/-- An analyzer already holding 59 colour samples under session "w". -/
def analyzer59 : PPGAnalyzer :=
  ⟨fun k => if k = "w" then
      some ⟨List.replicate 59 1, List.replicate 59 2, List.replicate 59 3⟩
    else none⟩

/-- 301 distinct colour samples. -/
def samples301 : List (ℚ × ℚ × ℚ) :=
  (List.range 301).map (fun i : ℕ => ((i : ℚ), (i : ℚ) + 1, (i : ℚ) + 2))

/-- A frame request fixture (its own session id "u" will be overridden
by batch analysis). -/
def frA : FrameRequest := ⟨"x", 0, 0, "u"⟩

/-- Like `frA` but with a different frame-level session id. -/
def frB : FrameRequest := ⟨"x", 0, 0, "v"⟩

/-- External collaborators that always fail to decode. -/
def extTrivial : Externals :=
  ⟨fun _ => none, fun i => (some i, none), fun _ => 0, fun _ => 0⟩

/-- External collaborators that always decode to `frame12` and detect a
face (the crop is the frame itself, no bounding box). -/
def extOk : Externals :=
  ⟨fun _ => some frame12, fun i => (some i, none), fun _ => 0, fun _ => 0⟩

/-- A one-frame batch request under batch session id "m". -/
def reqB : BatchFrameRequest := ⟨[frA], "m"⟩

/-! ### Helper lemmas -/


theorem clip01_nonneg (x : ℝ) : 0 ≤ clip01 x :=
  le_min zero_le_one (le_max_left 0 x)

theorem clip01_le_one (x : ℝ) : clip01 x ≤ 1 := min_le_left 1 _

theorem flatten_replicate (m k : ℕ) (c : α) :
    (List.replicate m (List.replicate k c)).flatten = List.replicate (m * k) c := by
  induction m with
  | zero => rw [Nat.zero_mul]; rfl
  | succ n ih =>
    rw [List.replicate_succ, List.flatten_cons, ih, Nat.succ_mul, Nat.add_comm,
      List.replicate_add]

theorem roiVals_const (img : Frame) (p : Pixel) (hp : ∀ i j, img.pix i j = p)
    (y1 y2 x1 x2 : ℕ) (ch : Pixel → ℚ) :
    roiVals img y1 y2 x1 x2 ch = List.replicate ((y2 - y1) * (x2 - x1)) (ch p) := by
  unfold roiVals
  have h1 : ∀ i : ℕ, ((List.range (x2 - x1)).map
      (fun j => ch (img.pix (y1 + i) (x1 + j)))) = List.replicate (x2 - x1) (ch p) := by
    intro i
    have h2 : (fun j => ch (img.pix (y1 + i) (x1 + j))) = fun _ : ℕ => ch p := by
      funext j; rw [hp]
    rw [h2, List.map_const', List.length_range]
  calc ((List.range (y2 - y1)).map (fun i => (List.range (x2 - x1)).map
          (fun j => ch (img.pix (y1 + i) (x1 + j))))).flatten
      = ((List.range (y2 - y1)).map (fun _ => List.replicate (x2 - x1) (ch p))).flatten := by
        congr 1
        apply List.map_congr_left
        intro a _
        exact h1 a
    _ = (List.replicate (y2 - y1) (List.replicate (x2 - x1) (ch p))).flatten := by
        rw [List.map_const', List.length_range]
    _ = List.replicate ((y2 - y1) * (x2 - x1)) (ch p) := flatten_replicate _ _ _

theorem ratMean_replicate (n : ℕ) (hn : n ≠ 0) (c : ℚ) :
    ratMean (List.replicate n c) = c := by
  unfold ratMean
  rw [List.sum_replicate, List.length_replicate, nsmul_eq_mul]
  exact mul_div_cancel_left₀ c (by exact_mod_cast hn)

/-- On a frame whose pixels all equal `p`, a successful extraction
returns exactly `(p.r, p.g, p.b)`. -/
theorem extract_const (img : Frame) (p : Pixel) (hp : ∀ i j, img.pix i j = p)
    (bb : Option BBox) (hne : extract_forehead_rgb img bb ≠ none) :
    extract_forehead_rgb img bb = some (p.r, p.g, p.b) := by
  unfold extract_forehead_rgb at hne ⊢
  by_cases h : cY2 img bb ≤ cY1 img bb ∨ cX2 img bb ≤ cX1 img bb
  · exact absurd (if_pos h) hne
  · rw [if_neg h]
    push_neg at h
    have hy : (cY2 img bb).toNat - (cY1 img bb).toNat ≠ 0 := by
      have h3 : (0 : ℤ) ≤ cY1 img bb := le_max_left 0 _
      have h1 := h.1
      omega
    have hx : (cX2 img bb).toNat - (cX1 img bb).toNat ≠ 0 := by
      have h4 : (0 : ℤ) ≤ cX1 img bb := le_max_left 0 _
      have h2 := h.2
      omega
    unfold roiChannelMean
    rw [roiVals_const img p hp, roiVals_const img p hp, roiVals_const img p hp,
      ratMean_replicate _ (Nat.mul_ne_zero hy hx), ratMean_replicate _ (Nat.mul_ne_zero hy hx),
      ratMean_replicate _ (Nat.mul_ne_zero hy hx)]

/-- The session handed back by `_get_session` is the observable session
of the store. -/
theorem _get_session_fst (a : PPGAnalyzer) (sid : String) :
    (_get_session a sid).1 = sessionOf a sid := by
  unfold _get_session sessionOf
  cases a.sessions sid <;> rfl

/-- `_get_session` leaves every observable session unchanged. -/
theorem sessionOf_get_session (a : PPGAnalyzer) (sid s : String) :
    sessionOf (_get_session a sid).2 s = sessionOf a s := by
  unfold _get_session sessionOf setSession
  cases h : a.sessions sid with
  | some v => rfl
  | none =>
    by_cases hs : s = sid
    · subst hs; simp [h]
    · simp [hs]

/-- `_get_session` touches no key other than `sid`. -/
theorem get_session_other (a : PPGAnalyzer) (sid s : String) (hs : s ≠ sid) :
    ((_get_session a sid).2).sessions s = a.sessions s := by
  unfold _get_session setSession
  cases a.sessions sid <;> simp [hs]

/-- `analyze` on a failed extraction: neutral 0.5 and only the lazy
session creation of `_get_session` happens to the store. -/
theorem analyze_extract_none (a : PPGAnalyzer) (img : Frame) (bb : Option BBox)
    (sid : String) (h : extract_forehead_rgb img bb = none) :
    a.analyze img bb sid = (0.5, (_get_session a sid).2) := by
  simp only [PPGAnalyzer.analyze, h]

/-- `analyze` on a successful extraction: the sample is appended to the
session and the score is 0 before 60 samples, `_compute_score` after. -/
theorem analyze_extract_some (a : PPGAnalyzer) (img : Frame) (bb : Option BBox)
    (sid : String) (r g b : ℚ) (h : extract_forehead_rgb img bb = some (r, g, b)) :
    a.analyze img bb sid =
      ((if ((sessionOf a sid).append r g b).len < 60 then (0.0 : ℝ)
        else _compute_score ((sessionOf a sid).append r g b)),
       setSession (_get_session a sid).2 sid ((sessionOf a sid).append r g b)) := by
  simp only [PPGAnalyzer.analyze, h, _get_session_fst]
  split <;> rfl

/-- Reading a session back out of `setSession`. -/
theorem sessionOf_setSession (a : PPGAnalyzer) (sid s : String) (v : PPGSession) :
    sessionOf (setSession a sid v) s = if s = sid then v else sessionOf a s := by
  unfold sessionOf setSession
  by_cases hs : s = sid <;> simp [hs]

/-- `pushCap` in closed form: drop the overflow from the left. -/
theorem pushCap_eq_drop (cap : ℕ) (xs : List α) (x : α) :
    pushCap cap xs x = (xs ++ [x]).drop (xs.length + 1 - cap) := by
  simp only [pushCap]
  by_cases h : cap < (xs ++ [x]).length
  · rw [if_pos h]
    simp
  · rw [if_neg h]
    simp only [List.length_append, List.length_singleton] at h
    rw [Nat.sub_eq_zero_of_le (by omega), List.drop_zero]

/-- The length of a capped push. -/
theorem pushCap_length (cap : ℕ) (xs : List α) (x : α) :
    (pushCap cap xs x).length = min cap (xs.length + 1) := by
  rw [pushCap_eq_drop, List.length_drop]
  simp only [List.length_append, List.length_singleton]
  omega

/-- Pushing onto the last `cap` elements keeps exactly the last `cap`
elements of the extended history. -/
theorem pushCap_lastN (cap : ℕ) (hcap : 0 < cap) (xs : List α) (x : α) :
    pushCap cap (lastN cap xs) x = lastN cap (xs ++ [x]) := by
  unfold lastN
  rw [pushCap_eq_drop, List.length_drop]
  simp only [List.drop_append_eq_append_drop, List.drop_drop, List.length_drop,
    List.length_append, List.length_singleton]
  congr 2 <;> omega

/-- Folding capped pushes over fresh samples extends the history. -/
theorem foldl_pushCap_lastN (cap : ℕ) (hcap : 0 < cap) (vs : List α) :
    ∀ base : List α,
      vs.foldl (pushCap cap) (lastN cap base) = lastN cap (base ++ vs) := by
  induction vs with
  | nil => intro base; simp [List.append_nil]
  | cons v rest ih =>
    intro base
    rw [List.foldl_cons, pushCap_lastN cap hcap, ih (base ++ [v]), List.append_assoc]
    rfl

theorem compute_score_bounds (s : PPGSession) :
    0 ≤ _compute_score s ∧ _compute_score s ≤ 1 := by
  unfold _compute_score
  exact ⟨clip01_nonneg _, clip01_le_one _⟩

/-! ### Claims -/

/-- C1: every PPG update returns a score in [0, 1] on each of its three
return paths (0.5 on extraction failure, 0.0 on insufficient history,
and the clamped anomaly value), and the combined fusion score lies in
[0, 1] whenever its three inputs do. (Over the reals no NaN/Infinity
exists; boundedness is the content of the no-NaN clause.) -/
theorem ppg_and_fusion_scores_bounded :
    (∀ (a : PPGAnalyzer) (img : Frame) (bb : Option BBox) (sid : String),
      0 ≤ (a.analyze img bb sid).1 ∧ (a.analyze img bb sid).1 ≤ 1) ∧
    (∀ d p t : ℝ, 0 ≤ d → d ≤ 1 → 0 ≤ p → p ≤ 1 → 0 ≤ t → t ≤ 1 →
      0 ≤ combine d p t ∧ combine d p t ≤ 1) := by
  constructor
  · intro a img bb sid
    cases hx : extract_forehead_rgb img bb with
    | none =>
      rw [analyze_extract_none a img bb sid hx]
      norm_num
    | some v =>
      obtain ⟨r, g, b⟩ := v
      rw [analyze_extract_some a img bb sid r g b hx]
      dsimp only
      split
      · norm_num
      · exact compute_score_bounds _
  · intro d p t hd0 hd1 hp0 hp1 ht0 ht1
    unfold combine
    constructor <;> nlinarith

/-- Witness for C1 at concrete inputs. -/
theorem ppg_and_fusion_scores_bounded_w :
    ((0 : ℝ) ≤ 0.5 ∧ (0.5 : ℝ) ≤ 1 ∧ (0 : ℝ) ≤ 0.25 ∧ (0.25 : ℝ) ≤ 1 ∧
      (0 : ℝ) ≤ 0.75 ∧ (0.75 : ℝ) ≤ 1) ∧
    (0 ≤ combine 0.5 0.25 0.75 ∧ combine 0.5 0.25 0.75 ≤ 1) ∧
    (0 ≤ (PPGAnalyzer.init.analyze frame11 none "s").1 ∧
      (PPGAnalyzer.init.analyze frame11 none "s").1 ≤ 1) :=
  ⟨by norm_num,
   ppg_and_fusion_scores_bounded.2 0.5 0.25 0.75 (by norm_num) (by norm_num)
     (by norm_num) (by norm_num) (by norm_num) (by norm_num),
   ppg_and_fusion_scores_bounded.1 PPGAnalyzer.init frame11 none "s"⟩

/-- C2: the fusion is `0.60·deep_conf + 0.20·ppg + 0.20·temporal`, and
classification of a combined score is (real, safe) iff `s < 0.30`,
(suspicious, warning) iff `0.30 ≤ s < 0.70`, (fake, danger) iff
`s ≥ 0.70`, lower bounds inclusive. -/
theorem fusion_weights_and_thresholds :
    (∀ d p t : ℝ, combine d p t = 0.60 * d + 0.20 * p + 0.20 * t) ∧
    (∀ s : ℝ,
      (s < 0.30 → _classify s = ("real", "safe")) ∧
      (0.30 ≤ s → s < 0.70 → _classify s = ("suspicious", "warning")) ∧
      (0.70 ≤ s → _classify s = ("fake", "danger"))) ∧
    _classify 0.30 = ("suspicious", "warning") ∧
    _classify 0.70 = ("fake", "danger") := by
  refine ⟨fun d p t => rfl, fun s => ⟨?_, ?_, ?_⟩, ?_, ?_⟩
  · intro h
    unfold _classify
    rw [if_pos h]
  · intro h1 h2
    unfold _classify
    rw [if_neg (not_lt.mpr h1), if_pos h2]
  · intro h
    unfold _classify
    rw [if_neg (not_lt.mpr (le_trans (by norm_num) h)),
      if_neg (not_lt.mpr h)]
  · unfold _classify
    rw [if_neg (by norm_num), if_pos (by norm_num)]
  · unfold _classify
    rw [if_neg (by norm_num), if_neg (by norm_num)]

/-- Witness for C2 at concrete inputs. -/
theorem fusion_weights_and_thresholds_w :
    combine 0.2 0.1 0.1 = 0.60 * 0.2 + 0.20 * 0.1 + 0.20 * 0.1 ∧
    ((0.1 : ℝ) < 0.30 ∧ _classify 0.1 = ("real", "safe")) ∧
    ((0.30 : ℝ) ≤ 0.5 ∧ (0.5 : ℝ) < 0.70 ∧ _classify 0.5 = ("suspicious", "warning")) ∧
    ((0.70 : ℝ) ≤ 0.9 ∧ _classify 0.9 = ("fake", "danger")) :=
  ⟨fusion_weights_and_thresholds.1 0.2 0.1 0.1,
   ⟨by norm_num, (fusion_weights_and_thresholds.2.1 0.1).1 (by norm_num)⟩,
   ⟨by norm_num, by norm_num,
     (fusion_weights_and_thresholds.2.1 0.5).2.1 (by norm_num) (by norm_num)⟩,
   ⟨by norm_num, (fusion_weights_and_thresholds.2.1 0.9).2.2 (by norm_num)⟩⟩

/-- The code's `_compute_score` is exactly the spec-worded pipeline on
the session's three channel series. -/
theorem compute_score_eq_spec (s : PPGSession) :
    _compute_score s = specPPGPipeline (sessR s) (sessG s) (sessB s) := by
  unfold _compute_score specPPGPipeline pulseSignal chromAlpha chromX chromY
  congr 1
  norm_num
  rw [mul_comm]

/-- C3: whenever the colour buffer holds at least 60 samples after the
current append, the returned PPG score is exactly the spec's pipeline —
per-channel mean normalisation, CHROM projection, adaptive alpha, pulse
signal, real DFT with bin `i` at `i·30/n` Hz, band SNR over [0.67, 3.33]
Hz, and `clamp(1 − 3·SNR, 0, 1)` — applied to the post-append buffer. -/
theorem ppg_score_matches_spec_pipeline (a : PPGAnalyzer) (img : Frame)
    (bb : Option BBox) (sid : String) (r g b : ℚ)
    (hx : extract_forehead_rgb img bb = some (r, g, b))
    (hlen : 60 ≤ ((sessionOf a sid).append r g b).len) :
    (a.analyze img bb sid).1 =
      specPPGPipeline (sessR ((sessionOf a sid).append r g b))
        (sessG ((sessionOf a sid).append r g b))
        (sessB ((sessionOf a sid).append r g b)) := by
  rw [analyze_extract_some a img bb sid r g b hx]
  dsimp only
  rw [if_neg (by omega), compute_score_eq_spec]

/-- Witness for C3: an analyzer with 59 buffered samples reaches 60 on
this update and scores by the spec pipeline. -/
theorem ppg_score_matches_spec_pipeline_w :
    extract_forehead_rgb frame12 none = some (1, 2, 3) ∧
    60 ≤ ((sessionOf analyzer59 "w").append 1 2 3).len ∧
    (analyzer59.analyze frame12 none "w").1 =
      specPPGPipeline (sessR ((sessionOf analyzer59 "w").append 1 2 3))
        (sessG ((sessionOf analyzer59 "w").append 1 2 3))
        (sessB ((sessionOf analyzer59 "w").append 1 2 3)) :=
  ⟨extract_const frame12 ⟨3, 2, 1⟩ (fun _ _ => rfl) none (by decide),
   by decide,
   ppg_score_matches_spec_pipeline analyzer59 frame12 none "w" 1 2 3
     (extract_const frame12 ⟨3, 2, 1⟩ (fun _ _ => rfl) none (by decide))
     (by decide)⟩

/-- C4: on extraction failure the PPG update returns exactly 0.5 and no
session's observable buffer changes; on success with fewer than 60
buffered samples after the append it returns exactly 0.0. -/
theorem ppg_failure_neutral_and_warmup_zero (a : PPGAnalyzer) (img : Frame)
    (bb : Option BBox) (sid : String) :
    (extract_forehead_rgb img bb = none →
      (a.analyze img bb sid).1 = 0.5 ∧
      ∀ s, sessionOf (a.analyze img bb sid).2 s = sessionOf a s) ∧
    (∀ r g b : ℚ, extract_forehead_rgb img bb = some (r, g, b) →
      ((sessionOf a sid).append r g b).len < 60 →
      (a.analyze img bb sid).1 = 0.0) := by
  constructor
  · intro h
    rw [analyze_extract_none a img bb sid h]
    exact ⟨rfl, fun s => sessionOf_get_session a sid s⟩
  · intro r g b h hlen
    rw [analyze_extract_some a img bb sid r g b h]
    dsimp only
    rw [if_pos hlen]

/-- Witness for C4: a failing extraction on a 1×1 frame and a succeeding
warm-up update on a fresh analyzer. -/
theorem ppg_failure_neutral_and_warmup_zero_w :
    extract_forehead_rgb frame11 none = none ∧
    (PPGAnalyzer.init.analyze frame11 none "s").1 = 0.5 ∧
    sessionOf (PPGAnalyzer.init.analyze frame11 none "s").2 "s" =
      sessionOf PPGAnalyzer.init "s" ∧
    extract_forehead_rgb frame12 none = some (1, 2, 3) ∧
    ((sessionOf PPGAnalyzer.init "s").append 1 2 3).len < 60 ∧
    (PPGAnalyzer.init.analyze frame12 none "s").1 = 0.0 :=
  ⟨by decide,
   ((ppg_failure_neutral_and_warmup_zero PPGAnalyzer.init frame11 none "s").1
     (by decide)).1,
   ((ppg_failure_neutral_and_warmup_zero PPGAnalyzer.init frame11 none "s").1
     (by decide)).2 "s",
   extract_const frame12 ⟨3, 2, 1⟩ (fun _ _ => rfl) none (by decide),
   by decide,
   (ppg_failure_neutral_and_warmup_zero PPGAnalyzer.init frame12 none "s").2 1 2 3
     (extract_const frame12 ⟨3, 2, 1⟩ (fun _ _ => rfl) none (by decide))
     (by decide)⟩

/-- C5 counterexample: read literally — the ROI being the top 15% of the
bounding-box height, failing exactly when the clamped ROI has zero
height — the claim demands failure on a 10×10 frame with a 3-pixel-tall
bounding box (15% of 3 truncates to 0 rows), but the code succeeds and
returns the channel means (its ROI height has a one-pixel minimum). -/
theorem roi_top15_literal_cex :
    specExtractLiteral frameC5 (some bbC5) = none ∧
    extract_forehead_rgb frameC5 (some bbC5) = some (5, 5, 5) :=
  ⟨by decide,
   extract_const frameC5 ⟨5, 5, 5⟩ (fun _ _ => rfl) (some bbC5) (by decide)⟩

/-- C5 amended: extraction computes the ROI as the top 15% of the
bounding-box height *with a minimum of one pixel row* and the 25%–75%
horizontal band, clamps both directions to the frame, fails exactly when
the clamped ROI has zero width or zero height, and on success returns
the arithmetic per-channel means over the ROI as an (R, G, B) triple. -/
theorem extract_roi_amended (img : Frame) (bb : Option BBox) :
    extract_forehead_rgb img bb = specExtractAmended img bb ∧
    (extract_forehead_rgb img bb = none ↔
      cY2 img bb ≤ cY1 img bb ∨ cX2 img bb ≤ cX1 img bb) ∧
    (extract_forehead_rgb img bb ≠ none →
      extract_forehead_rgb img bb =
        some (roiChannelMean img bb (·.r), roiChannelMean img bb (·.g),
          roiChannelMean img bb (·.b))) := by
  refine ⟨rfl, ?_, ?_⟩
  · unfold extract_forehead_rgb
    by_cases h : cY2 img bb ≤ cY1 img bb ∨ cX2 img bb ≤ cX1 img bb
    · simp [h]
    · simp [h]
  · intro hne
    unfold extract_forehead_rgb at hne ⊢
    by_cases h : cY2 img bb ≤ cY1 img bb ∨ cX2 img bb ≤ cX1 img bb
    · exact absurd (if_pos h) hne
    · rw [if_neg h]

/-- Witness for C5's amended theorem at a concrete succeeding input. -/
theorem extract_roi_amended_w :
    extract_forehead_rgb frameC5 (some bbC5) ≠ none ∧
    extract_forehead_rgb frameC5 (some bbC5) =
      some (roiChannelMean frameC5 (some bbC5) (·.r),
        roiChannelMean frameC5 (some bbC5) (·.g),
        roiChannelMean frameC5 (some bbC5) (·.b)) :=
  ⟨by decide, (extract_roi_amended frameC5 (some bbC5)).2.2 (by decide)⟩

theorem lastN_length (n : ℕ) (xs : List α) :
    (lastN n xs).length = min n xs.length := by
  unfold lastN
  rw [List.length_drop]
  omega

/-- `appendAll` acts channelwise as a fold of capped pushes. -/
theorem appendAll_channels (samples : List (ℚ × ℚ × ℚ)) :
    ∀ s : PPGSession,
      (appendAll s samples).r = (samples.map (·.1)).foldl (pushCap 300) s.r ∧
      (appendAll s samples).g = (samples.map (·.2.1)).foldl (pushCap 300) s.g ∧
      (appendAll s samples).b = (samples.map (·.2.2)).foldl (pushCap 300) s.b := by
  induction samples with
  | nil => intro s; exact ⟨rfl, rfl, rfl⟩
  | cons v rest ih =>
    intro s
    simpa [appendAll, PPGSession.append, PPGSession.MAX_LEN, List.foldl_cons]
      using ih (s.append v.1 v.2.1 v.2.2)

/-- C7: after more than 300 appends into a fresh session, each channel
deque holds exactly the most recent 300 samples in insertion order
(strict FIFO eviction), its length is exactly 300, and after any number
of appends the length never exceeds the capacity 300. -/
theorem color_buffer_strict_fifo (samples : List (ℚ × ℚ × ℚ))
    (h : 300 < samples.length) :
    (appendAll PPGSession.init samples).r = lastN 300 (samples.map (·.1)) ∧
    (appendAll PPGSession.init samples).g = lastN 300 (samples.map (·.2.1)) ∧
    (appendAll PPGSession.init samples).b = lastN 300 (samples.map (·.2.2)) ∧
    (appendAll PPGSession.init samples).len = 300 ∧
    (∀ pre : List (ℚ × ℚ × ℚ), (appendAll PPGSession.init pre).len ≤ 300) := by
  have key : ∀ vs : List (ℚ × ℚ × ℚ),
      (appendAll PPGSession.init vs).r = lastN 300 (vs.map (·.1)) ∧
      (appendAll PPGSession.init vs).g = lastN 300 (vs.map (·.2.1)) ∧
      (appendAll PPGSession.init vs).b = lastN 300 (vs.map (·.2.2)) := by
    intro vs
    obtain ⟨hr, hg, hb⟩ := appendAll_channels vs PPGSession.init
    have hbase : ∀ l : List ℚ, ([] : List ℚ) = lastN 300 ([] : List ℚ) := by
      intro l; rfl
    refine ⟨?_, ?_, ?_⟩
    · rw [hr]
      have := foldl_pushCap_lastN 300 (by norm_num) (vs.map (·.1)) []
      simpa [lastN] using this
    · rw [hg]
      have := foldl_pushCap_lastN 300 (by norm_num) (vs.map (·.2.1)) []
      simpa [lastN] using this
    · rw [hb]
      have := foldl_pushCap_lastN 300 (by norm_num) (vs.map (·.2.2)) []
      simpa [lastN] using this
  obtain ⟨hr, hg, hb⟩ := key samples
  refine ⟨hr, hg, hb, ?_, ?_⟩
  · rw [PPGSession.len, hr, lastN_length, List.length_map]
    omega
  · intro pre
    rw [PPGSession.len, (key pre).1, lastN_length]
    omega

/-- Witness for C7: 301 concrete samples. -/
theorem color_buffer_strict_fifo_w :
    300 < samples301.length ∧
    (appendAll PPGSession.init samples301).len = 300 ∧
    (appendAll PPGSession.init samples301).r = lastN 300 (samples301.map (·.1)) :=
  have h : 300 < samples301.length := by
    simp only [samples301, List.length_map, List.length_range]
    omega
  ⟨h, (color_buffer_strict_fifo samples301 h).2.2.2.1,
   (color_buffer_strict_fifo samples301 h).1⟩

/-- Looking a session up twice returns the same session and store. -/
theorem _get_session_idem (a : PPGAnalyzer) (sid : String) :
    _get_session (_get_session a sid).2 sid = _get_session a sid := by
  unfold _get_session setSession
  cases h : a.sessions sid with
  | some s => simp [h]
  | none => simp [h]

/-- `_get_session` stores the observable session under its own key. -/
theorem get_session_snd_own (a : PPGAnalyzer) (sid : String) :
    ((_get_session a sid).2).sessions sid = some (sessionOf a sid) := by
  unfold _get_session setSession sessionOf
  cases h : a.sessions sid <;> simp [h]

/-- A PPG update touches no session key other than its own. -/
theorem analyze_sessions_other (a : PPGAnalyzer) (img : Frame) (bb : Option BBox)
    (sid s : String) (hs : s ≠ sid) :
    ((a.analyze img bb sid).2).sessions s = a.sessions s := by
  cases hx : extract_forehead_rgb img bb with
  | none =>
    rw [analyze_extract_none a img bb sid hx]
    exact get_session_other a sid s hs
  | some v =>
    obtain ⟨r, g, b⟩ := v
    rw [analyze_extract_some a img bb sid r g b hx]
    dsimp only
    unfold setSession
    simp only [hs, if_false]
    exact get_session_other a sid s hs

/-- The score and the own-key result of a PPG update depend only on the
update's own session entry. -/
theorem analyze_agree (a a' : PPGAnalyzer) (img : Frame) (bb : Option BBox)
    (sid : String) (h : a.sessions sid = a'.sessions sid) :
    (a.analyze img bb sid).1 = (a'.analyze img bb sid).1 ∧
    ((a.analyze img bb sid).2).sessions sid = ((a'.analyze img bb sid).2).sessions sid := by
  have hobs : sessionOf a sid = sessionOf a' sid := by
    unfold sessionOf
    rw [h]
  cases hx : extract_forehead_rgb img bb with
  | none =>
    rw [analyze_extract_none a img bb sid hx, analyze_extract_none a' img bb sid hx]
    exact ⟨rfl, by rw [get_session_snd_own, get_session_snd_own, hobs]⟩
  | some v =>
    obtain ⟨r, g, b⟩ := v
    rw [analyze_extract_some a img bb sid r g b hx,
      analyze_extract_some a' img bb sid r g b hx]
    dsimp only
    rw [hobs]
    refine ⟨rfl, ?_⟩
    unfold setSession
    simp

/-- Agreement on one session key is preserved by any PPG update. -/
theorem analyze_sessions_agree (a a' : PPGAnalyzer) (s : String)
    (h : a.sessions s = a'.sessions s) (img : Frame) (bb : Option BBox) (sid : String) :
    ((a.analyze img bb sid).2).sessions s = ((a'.analyze img bb sid).2).sessions s := by
  by_cases hs : s = sid
  · subst hs
    exact (analyze_agree a a' img bb s h).2
  · rw [analyze_sessions_other a img bb sid s hs,
      analyze_sessions_other a' img bb sid s hs, h]

/-- Agreement on one session key is preserved by any run of updates. -/
theorem runAll_agree (s : String) (us : List PPGUpdate) :
    ∀ a a', a.sessions s = a'.sessions s →
      (runAll a us).sessions s = (runAll a' us).sessions s := by
  induction us with
  | nil => intro a a' h; exact h
  | cons u rest ih =>
    intro a a' h
    exact ih _ _ (analyze_sessions_agree a a' s h u.1 u.2.1 u.2.2)

/-- A session's final entry after any interleaving of updates is the one
produced by its own updates alone. -/
theorem runAll_filter (s : String) (us : List PPGUpdate) :
    ∀ a : PPGAnalyzer, (runAll a us).sessions s =
      (runAll a (us.filter (fun u => u.2.2 == s))).sessions s := by
  induction us with
  | nil => intro a; rfl
  | cons u rest ih =>
    intro a
    by_cases hu : u.2.2 = s
    · rw [List.filter_cons_of_pos (by simpa using hu)]
      simp only [runAll]
      exact ih _
    · rw [List.filter_cons_of_neg (by simpa using hu)]
      calc (runAll ((a.analyze u.1 u.2.1 u.2.2).2) rest).sessions s
          = (runAll ((a.analyze u.1 u.2.1 u.2.2).2)
              (rest.filter (fun u => u.2.2 == s))).sessions s := ih _
        _ = (runAll a (rest.filter (fun u => u.2.2 == s))).sessions s :=
            runAll_agree s _ _ _
              (analyze_sessions_other a u.1 u.2.1 u.2.2 s (fun hss => hu hss.symm))

/-- C8: `_get_session` is idempotent (repeated lookups with the same id
return the identical session state, created fresh only on first
reference); an update for a session id mutates no other key; an update's
score and own-key effect depend only on its own session entry; and a
session's entry after any interleaving of updates equals the one after
its own updates alone — sessions are isolated. -/
theorem session_store_idempotent_isolated (a : PPGAnalyzer) (sid : String) :
    (_get_session (_get_session a sid).2 sid = _get_session a sid) ∧
    (∀ (img : Frame) (bb : Option BBox) (s : String), s ≠ sid →
      ((a.analyze img bb sid).2).sessions s = a.sessions s) ∧
    (∀ (a' : PPGAnalyzer) (img : Frame) (bb : Option BBox),
      a.sessions sid = a'.sessions sid →
      (a.analyze img bb sid).1 = (a'.analyze img bb sid).1 ∧
      ((a.analyze img bb sid).2).sessions sid = ((a'.analyze img bb sid).2).sessions sid) ∧
    (∀ (us : List PPGUpdate) (s : String),
      (runAll a us).sessions s =
        (runAll a (us.filter (fun u => u.2.2 == s))).sessions s) :=
  ⟨_get_session_idem a sid,
   fun img bb s hs => analyze_sessions_other a img bb sid s hs,
   fun a' img bb h => analyze_agree a a' img bb sid h,
   fun us s => runAll_filter s us a⟩

/-- Witness for C8 at concrete session ids "a" and "b". -/
theorem session_store_idempotent_isolated_w :
    _get_session (_get_session PPGAnalyzer.init "a").2 "a" =
      _get_session PPGAnalyzer.init "a" ∧
    (("b" : String) ≠ "a" ∧
      ((PPGAnalyzer.init.analyze frame12 none "a").2).sessions "b" =
        PPGAnalyzer.init.sessions "b") ∧
    (PPGAnalyzer.init.analyze frame12 none "a").1 =
      (PPGAnalyzer.init.analyze frame12 none "a").1 :=
  ⟨(session_store_idempotent_isolated PPGAnalyzer.init "a").1,
   ⟨by decide,
    (session_store_idempotent_isolated PPGAnalyzer.init "a").2.1 frame12 none "b"
      (by decide)⟩,
   ((session_store_idempotent_isolated PPGAnalyzer.init "a").2.2.1
     PPGAnalyzer.init frame12 none rfl).1⟩

/-- A successful update stores exactly the appended session under its
own key. -/
theorem analyze_sessionOf_own (a : PPGAnalyzer) (img : Frame) (bb : Option BBox)
    (sid : String) (r g b : ℚ) (hx : extract_forehead_rgb img bb = some (r, g, b)) :
    sessionOf (a.analyze img bb sid).2 sid = (sessionOf a sid).append r g b := by
  rw [analyze_extract_some a img bb sid r g b hx]
  dsimp only
  rw [sessionOf_setSession, if_pos rfl]

/-- Equal store entries read back as equal observable sessions. -/
theorem sessionOf_congr (a a' : PPGAnalyzer) (s : String)
    (h : a.sessions s = a'.sessions s) : sessionOf a s = sessionOf a' s := by
  unfold sessionOf
  rw [h]

/-- `append` preserves the equal-length property of the three channels. -/
theorem balanced_append (s : PPGSession) (r g b : ℚ) (h : balanced s) :
    balanced (s.append r g b) := by
  obtain ⟨h1, h2⟩ := h
  unfold balanced PPGSession.append
  dsimp only
  rw [pushCap_length, pushCap_length, pushCap_length, h1, h2]
  exact ⟨rfl, rfl⟩

/-- Every update preserves balancedness of every observable session. -/
theorem analyze_balanced (a : PPGAnalyzer) (img : Frame) (bb : Option BBox)
    (sid : String) (hall : ∀ s, balanced (sessionOf a s)) :
    ∀ s, balanced (sessionOf (a.analyze img bb sid).2 s) := by
  intro s
  cases hx : extract_forehead_rgb img bb with
  | none =>
    rw [analyze_extract_none a img bb sid hx, sessionOf_get_session a sid s]
    exact hall s
  | some v =>
    obtain ⟨r, g, b⟩ := v
    by_cases hs : s = sid
    · subst hs
      rw [analyze_sessionOf_own a img bb s r g b hx]
      exact balanced_append _ r g b (hall s)
    · rw [sessionOf_congr _ a s (analyze_sessions_other a img bb sid s hs)]
      exact hall s

/-- Balancedness of every session is an invariant of any run. -/
theorem runAll_balanced (us : List PPGUpdate) :
    ∀ a : PPGAnalyzer, (∀ s, balanced (sessionOf a s)) →
      ∀ s, balanced (sessionOf (runAll a us) s) := by
  induction us with
  | nil => intro a h; exact h
  | cons u rest ih =>
    intro a h
    exact ih _ (analyze_balanced a u.1 u.2.1 u.2.2 h)

/-- C9: the three channel deques of a session always agree in length — a
successful update appends exactly one sample to all three channels, a
failed extraction changes no session, and from a fresh analyzer every
reachable session state is balanced. -/
theorem channel_buffers_equal_length :
    (∀ (a : PPGAnalyzer) (img : Frame) (bb : Option BBox) (sid : String) (r g b : ℚ),
      extract_forehead_rgb img bb = some (r, g, b) →
      sessionOf (a.analyze img bb sid).2 sid = (sessionOf a sid).append r g b) ∧
    (∀ (a : PPGAnalyzer) (img : Frame) (bb : Option BBox) (sid : String),
      extract_forehead_rgb img bb = none →
      ∀ s, sessionOf (a.analyze img bb sid).2 s = sessionOf a s) ∧
    (∀ (s : PPGSession) (r g b : ℚ), balanced s → balanced (s.append r g b)) ∧
    (∀ (us : List PPGUpdate) (s : String),
      balanced (sessionOf (runAll PPGAnalyzer.init us) s)) :=
  ⟨fun a img bb sid r g b hx => analyze_sessionOf_own a img bb sid r g b hx,
   fun a img bb sid hx s => by
     rw [analyze_extract_none a img bb sid hx]
     exact sessionOf_get_session a sid s,
   fun s r g b h => balanced_append s r g b h,
   fun us s => runAll_balanced us PPGAnalyzer.init (fun _ => ⟨rfl, rfl⟩) s⟩

/-- Witness for C9 at concrete inputs. -/
theorem channel_buffers_equal_length_w :
    extract_forehead_rgb frame12 none = some (1, 2, 3) ∧
    sessionOf (PPGAnalyzer.init.analyze frame12 none "s").2 "s" =
      (sessionOf PPGAnalyzer.init "s").append 1 2 3 ∧
    extract_forehead_rgb frame11 none = none ∧
    sessionOf (PPGAnalyzer.init.analyze frame11 none "s").2 "s" =
      sessionOf PPGAnalyzer.init "s" ∧
    balanced (PPGSession.init.append 1 2 3) ∧
    balanced (sessionOf (runAll PPGAnalyzer.init []) "s") :=
  ⟨extract_const frame12 ⟨3, 2, 1⟩ (fun _ _ => rfl) none (by decide),
   channel_buffers_equal_length.1 PPGAnalyzer.init frame12 none "s" 1 2 3
     (extract_const frame12 ⟨3, 2, 1⟩ (fun _ _ => rfl) none (by decide)),
   by decide,
   channel_buffers_equal_length.2.1 PPGAnalyzer.init frame11 none "s" (by decide) "s",
   channel_buffers_equal_length.2.2.1 PPGSession.init 1 2 3 ⟨rfl, rfl⟩,
   channel_buffers_equal_length.2.2.2 [] "s"⟩

/-- Whether a frame yields a result ignores its session id. -/
theorem frameOk_override (E : Externals) (sid : String) (f : FrameRequest) :
    frameOk E { f with session_id := sid } = frameOk E f := rfl

/-- A frame produces a per-frame result exactly when it decodes and a
face is found — independent of all session state. -/
theorem analyze_frame_isSome (E : Externals) (st : ServerState) (f : FrameRequest) :
    (analyze_frame E st f).1.isSome = frameOk E f := by
  unfold analyze_frame frameOk
  cases hd : E.decode f.frame_b64 with
  | none => rfl
  | some img =>
    cases hp : (E.preprocess img).1 with
    | none => simp [hp]
    | some face => simp [hp]

/-- The number of per-frame results of a batch run equals the number of
frames that decode and contain a face. -/
theorem batch_go_length (E : Externals) (sid : String) (fs : List FrameRequest) :
    ∀ st : ServerState,
      ((analyze_batch_go E sid st fs).1).length =
        fs.countP (fun f => frameOk E f) := by
  induction fs with
  | nil => intro st; rfl
  | cons f rest ih =>
    intro st
    rw [List.countP_cons]
    unfold analyze_batch_go
    cases hres : (analyze_frame E st { f with session_id := sid }).1 with
    | none =>
      have hok : frameOk E f = false := by
        rw [← frameOk_override E sid f, ← analyze_frame_isSome E st, hres]
        rfl
      simp only [hres, hok, if_false, Nat.add_zero]
      exact ih _
    | some r =>
      have hok : frameOk E f = true := by
        rw [← frameOk_override E sid f, ← analyze_frame_isSome E st, hres]
        rfl
      simp only [hres, hok, if_true, List.length_cons]
      rw [ih _]

/-- `analyze_batch` when no frame produced a result. -/
theorem analyze_batch_empty (E : Externals) (st : ServerState) (req : BatchFrameRequest)
    (he : (analyze_batch_go E req.session_id st req.frames).1.isEmpty = true) :
    analyze_batch E st req = (.error "No faces detected in any frame",
      (analyze_batch_go E req.session_id st req.frames).2) := by
  simp only [analyze_batch]
  rw [if_pos he]

/-- `analyze_batch` when some frame produced a result. -/
theorem analyze_batch_nonempty (E : Externals) (st : ServerState) (req : BatchFrameRequest)
    (he : ¬ (analyze_batch_go E req.session_id st req.frames).1.isEmpty = true) :
    analyze_batch E st req = (.ok
      { results := (analyze_batch_go E req.session_id st req.frames).1
        session_id := req.session_id
        avg_combined_score := roundTo 4
          (((analyze_batch_go E req.session_id st req.frames).1.map
              (·.combined_score)).sum /
            (analyze_batch_go E req.session_id st req.frames).1.length)
        overall_verdict := (_classify
          (((analyze_batch_go E req.session_id st req.frames).1.map
              (·.combined_score)).sum /
            (analyze_batch_go E req.session_id st req.frames).1.length)).2 },
      (analyze_batch_go E req.session_id st req.frames).2) := by
  simp only [analyze_batch]
  rw [if_neg he]

/-- C6: the batch fails with the distinguished "no faces in any frame"
error iff zero frames produced a per-frame result; otherwise the
aggregate is `round₄` of the mean of `combined_score` over exactly the
frames that produced a result (frames without a result are excluded, not
zero-filled: the divisor is the number of results). -/
theorem batch_mean_over_successes (E : Externals) (st : ServerState)
    (req : BatchFrameRequest) :
    ((analyze_batch E st req).1 = .error "No faces detected in any frame" ↔
      req.frames.countP (fun f => frameOk E f) = 0) ∧
    (0 < req.frames.countP (fun f => frameOk E f) →
      ∃ (out : BatchAnalysisResult) (st2 : ServerState),
        analyze_batch E st req = (.ok out, st2) ∧
        out.results.length = req.frames.countP (fun f => frameOk E f) ∧
        out.avg_combined_score =
          roundTo 4 ((out.results.map (·.combined_score)).sum / out.results.length)) := by
  have hlen := batch_go_length E req.session_id req.frames st
  by_cases he : (analyze_batch_go E req.session_id st req.frames).1.isEmpty = true
  · have h0 : req.frames.countP (fun f => frameOk E f) = 0 := by
      rw [← hlen]
      rw [List.isEmpty_iff] at he
      rw [he]
      rfl
    rw [analyze_batch_empty E st req he]
    constructor
    · simp [h0]
    · intro hpos
      omega
  · have h0 : req.frames.countP (fun f => frameOk E f) ≠ 0 := by
      rw [← hlen]
      intro hc
      exact he (by rw [List.isEmpty_iff, ← List.length_eq_zero]; exact hc)
    rw [analyze_batch_nonempty E st req he]
    constructor
    · constructor
      · intro hc
        simp at hc
      · intro hc
        exact absurd hc h0
    · intro hpos
      refine ⟨_, _, rfl, ?_, rfl⟩
      exact hlen

/-- Witness for C6: a one-frame batch that succeeds. -/
theorem batch_mean_over_successes_w :
    0 < reqB.frames.countP (fun f => frameOk extOk f) ∧
    (∃ (out : BatchAnalysisResult) (st2 : ServerState),
      analyze_batch extOk ServerState.init reqB = (.ok out, st2) ∧
      out.results.length = reqB.frames.countP (fun f => frameOk extOk f) ∧
      out.avg_combined_score =
        roundTo 4 ((out.results.map (·.combined_score)).sum / out.results.length)) :=
  ⟨by decide,
   (batch_mean_over_successes extOk ServerState.init reqB).2 (by decide)⟩

/-- Overriding the session id erases any difference confined to it. -/
theorem override_eq (sid : String) (f f' : FrameRequest) (h : stripSid f = stripSid f') :
    ({ f with session_id := sid } : FrameRequest) = { f' with session_id := sid } := by
  cases f
  cases f'
  unfold stripSid at h
  simp only [Prod.mk.injEq] at h
  obtain ⟨h1, h2, h3⟩ := h
  simp [h1, h2, h3]

/-- The batch loop's outcome is independent of the frames' own session
ids (they are all overridden with the batch id before analysis). -/
theorem batch_go_ignore (E : Externals) (sid : String) :
    ∀ (fr fr' : List FrameRequest), fr.map stripSid = fr'.map stripSid →
      ∀ st, analyze_batch_go E sid st fr = analyze_batch_go E sid st fr' := by
  intro fr
  induction fr with
  | nil =>
    intro fr' h st
    cases fr' with
    | nil => rfl
    | cons f2 fs2 => simp at h
  | cons f fs ih =>
    intro fr' h st
    cases fr' with
    | nil => simp at h
    | cons f2 fs2 =>
      simp only [List.map_cons, List.cons.injEq] at h
      unfold analyze_batch_go
      rw [override_eq sid f f2 h.1]
      simp only [ih fs2 h.2]

/-- A single-frame analysis touches no PPG or temporal session key other
than the request's own session id. -/
theorem analyze_frame_other (E : Externals) (st : ServerState) (f : FrameRequest)
    (s : String) (hs : s ≠ f.session_id) :
    ((analyze_frame E st f).2).ppg.sessions s = st.ppg.sessions s ∧
    ((analyze_frame E st f).2).temporal.sessions s = st.temporal.sessions s := by
  unfold analyze_frame
  cases hd : E.decode f.frame_b64 with
  | none => exact ⟨rfl, rfl⟩
  | some img =>
    cases hp : (E.preprocess img).1 with
    | none => simp [hp]
    | some face =>
      simp only [hp]
      constructor
      · exact analyze_sessions_other st.ppg img (E.preprocess img).2 f.session_id s hs
      · unfold TemporalConsistencyChecker.update
        simp [hs]

/-- The batch loop touches no session key other than the batch id. -/
theorem batch_go_other (E : Externals) (sid : String) (fs : List FrameRequest)
    (s : String) (hs : s ≠ sid) :
    ∀ st, ((analyze_batch_go E sid st fs).2).ppg.sessions s = st.ppg.sessions s ∧
      ((analyze_batch_go E sid st fs).2).temporal.sessions s = st.temporal.sessions s := by
  induction fs with
  | nil => intro st; exact ⟨rfl, rfl⟩
  | cons f rest ih =>
    intro st
    unfold analyze_batch_go
    have hstep := analyze_frame_other E st { f with session_id := sid } s hs
    have hrest := ih (analyze_frame E st { f with session_id := sid }).2
    cases hres : (analyze_frame E st { f with session_id := sid }).1 with
    | none =>
      simp only [hres]
      exact ⟨hrest.1.trans hstep.1, hrest.2.trans hstep.2⟩
    | some r =>
      simp only [hres]
      exact ⟨hrest.1.trans hstep.1, hrest.2.trans hstep.2⟩

/-- The final state of `analyze_batch` is the batch loop's final state,
on both the error and the success path. -/
theorem analyze_batch_snd (E : Externals) (st : ServerState) (req : BatchFrameRequest) :
    (analyze_batch E st req).2 = (analyze_batch_go E req.session_id st req.frames).2 := by
  by_cases he : (analyze_batch_go E req.session_id st req.frames).1.isEmpty = true
  · rw [analyze_batch_empty E st req he]
  · rw [analyze_batch_nonempty E st req he]

/-- C10: every submitted frame's own session id is overwritten with the
batch-level id before analysis — the batch result and final state are
independent of the frames' own session ids, and all PPG and temporal
updates of the batch thread through the single batch session (no other
session key is touched). -/
theorem batch_overrides_frame_session_ids (E : Externals) (st : ServerState)
    (fr fr' : List FrameRequest) (sid : String)
    (h : fr.map stripSid = fr'.map stripSid) :
    analyze_batch E st ⟨fr, sid⟩ = analyze_batch E st ⟨fr', sid⟩ ∧
    (∀ s, s ≠ sid →
      ((analyze_batch E st ⟨fr, sid⟩).2).ppg.sessions s = st.ppg.sessions s ∧
      ((analyze_batch E st ⟨fr, sid⟩).2).temporal.sessions s = st.temporal.sessions s) := by
  constructor
  · simp only [analyze_batch]
    rw [batch_go_ignore E sid fr fr' h st]
  · intro s hs
    rw [analyze_batch_snd E st ⟨fr, sid⟩]
    exact batch_go_other E sid fr s hs st

/-- Witness for C10: two one-frame batches differing only in the frame's
own session id. -/
theorem batch_overrides_frame_session_ids_w :
    [frA].map stripSid = [frB].map stripSid ∧
    analyze_batch extTrivial ServerState.init ⟨[frA], "m"⟩ =
      analyze_batch extTrivial ServerState.init ⟨[frB], "m"⟩ ∧
    (("q" : String) ≠ "m" ∧
      ((analyze_batch extTrivial ServerState.init ⟨[frA], "m"⟩).2).ppg.sessions "q" =
        ServerState.init.ppg.sessions "q") :=
  ⟨by decide,
   (batch_overrides_frame_session_ids extTrivial ServerState.init [frA] [frB] "m"
     (by decide)).1,
   ⟨by decide,
    ((batch_overrides_frame_session_ids extTrivial ServerState.init [frA] [frB] "m"
      (by decide)).2 "q" (by decide)).1⟩⟩

end Deepfake
